import Mathlib

/-!
Shallow embedding of the Synacor virtual machine interpreter
(`src/main.rs`) and verification of its specification claims.

Machine words are `Nat` values that the interpreter keeps below 2^16
(they originate from 16-bit loads and 16-bit operations).  Rust panics
(slice index out of bounds, integer underflow, `unwrap`/`expect` on an
empty option, remainder by zero) abort the process; they are modelled as
`Fault` values, named after the spec's error taxonomy for the sites the
spec describes.
-/

namespace Synacor

/-- Abnormal termination conditions.  Each constructor corresponds to a
panic site in `main.rs`. -/
inductive Fault where
  /-- `literal_or_register`: register index `addr - 32768` is out of
  bounds for the 8-slot bank, i.e. the operand word is ≥ 32776. -/
  | invalidOperand : Fault
  /-- `register` with `addr < 32768`: the `addr - 32768` subtraction
  underflows (debug) or the wrapped index is out of bounds (release). -/
  | invalidDestination : Fault
  /-- `stack.pop().expect("Empty stack")` in the `pop` handler, and
  `stack.pop().unwrap()` in the `ret` handler, on an empty stack. -/
  | stackUnderflow : Fault
  /-- `words[i]` indexing with `i` not below the vector length. -/
  | outOfRangeAddress : Fault
  /-- `panic!("Unhandled opcode {}")` in the dispatch fallback. -/
  | unknownOpcode : Fault
  /-- `b % c` with `c == 0` panics in Rust. -/
  | divByZero : Fault
  /-- `stdin().bytes().next()` returned `None` and was `unwrap`ped. -/
  | inputExhausted : Fault
deriving DecidableEq, Repr

/-- The mutable machine state owned by `main`: the word vector (program
image doubling as memory), the 8 registers, the value stack and the
program counter, plus the not-yet-consumed stdin bytes and the bytes
emitted by `out`. -/
structure Machine where
  words : List Nat
  registers : List Nat
  stack : List Nat
  pc : Nat
  input : List Nat
  output : List Nat
deriving DecidableEq, Repr

/-- `fn literal_or_register(addr: u16, registers: &[u16]) -> u16`:
an operand word ≥ 32768 reads register `addr - 32768` (out-of-bounds
index panics); otherwise the word itself is the value. -/
def literal_or_register (addr : Nat) (registers : List Nat) : Except Fault Nat :=
  if 32768 ≤ addr then
    match registers.get? (addr - 32768) with
    | some x => Except.ok x
    | none => Except.error Fault.invalidOperand
  else
    Except.ok addr

/-- `fn register(addr: u16, registers: &mut [u16]) -> &mut u16`:
returns the register index `addr - 32768`.  For `addr < 32768` the u16
subtraction panics in debug builds and the wrapped index is out of
bounds in release builds; for `addr ≥ 32776` the index is out of
bounds.  Either way the process aborts. -/
def register (addr : Nat) (registers : List Nat) : Except Fault Nat :=
  if addr < 32768 then
    Except.error Fault.invalidDestination
  else if addr - 32768 < registers.length then
    Except.ok (addr - 32768)
  else
    Except.error Fault.invalidOperand

/-- `words[i]`: Vec indexing; out of bounds panics. -/
def fetchWord (words : List Nat) (i : Nat) : Except Fault Nat :=
  match words.get? i with
  | some w => Except.ok w
  | none => Except.error Fault.outOfRangeAddress

/-- `literal_or_register(words[i], &registers)` as one step:
fetch the raw operand word at `i`, then resolve it. -/
def resolveAt (m : Machine) (i : Nat) : Except Fault Nat :=
  match fetchWord m.words i with
  | Except.error f => Except.error f
  | Except.ok w => literal_or_register w m.registers

/-- `register(words[i], &mut registers)` as one step:
fetch the raw operand word at `i`, then take it as a register index. -/
def registerAt (m : Machine) (i : Nat) : Except Fault Nat :=
  match fetchWord m.words i with
  | Except.error f => Except.error f
  | Except.ok w => register w m.registers

/-- Outcome of one iteration of the `loop` in `main`. -/
inductive StepResult where
  /-- `return` out of `main` (opcode 0). -/
  | halt : StepResult
  /-- A Rust panic aborts the process. -/
  | fault : Fault → StepResult
  /-- Fall through to the next loop iteration with updated state. -/
  | next : Machine → StepResult
deriving DecidableEq, Repr

/-- One iteration of the fetch–decode–execute `loop` in `main`.
Each arm mirrors the corresponding `match op` arm of `main.rs`,
including the order in which operand words are fetched and resolved. -/
def step (m : Machine) : StepResult :=
  match fetchWord m.words m.pc with
  | Except.error f => StepResult.fault f
  | Except.ok op =>
    match op with
    -- halt: 0
    | 0 => StepResult.halt
    -- set: 1 a b
    | 1 =>
      match resolveAt m (m.pc + 2) with
      | Except.error f => StepResult.fault f
      | Except.ok b =>
        match registerAt m (m.pc + 1) with
        | Except.error f => StepResult.fault f
        | Except.ok a =>
          StepResult.next { m with registers := m.registers.set a b, pc := m.pc + 3 }
    -- push: 2 a
    | 2 =>
      match resolveAt m (m.pc + 1) with
      | Except.error f => StepResult.fault f
      | Except.ok a =>
        StepResult.next { m with stack := a :: m.stack, pc := m.pc + 2 }
    -- pop: 3 a ; empty stack = error
    | 3 =>
      match registerAt m (m.pc + 1) with
      | Except.error f => StepResult.fault f
      | Except.ok a =>
        match m.stack with
        | [] => StepResult.fault Fault.stackUnderflow
        | v :: rest =>
          StepResult.next { m with registers := m.registers.set a v, stack := rest, pc := m.pc + 2 }
    -- eq: 4 a b c
    | 4 =>
      match resolveAt m (m.pc + 2) with
      | Except.error f => StepResult.fault f
      | Except.ok b =>
        match resolveAt m (m.pc + 3) with
        | Except.error f => StepResult.fault f
        | Except.ok c =>
          match registerAt m (m.pc + 1) with
          | Except.error f => StepResult.fault f
          | Except.ok a =>
            StepResult.next { m with registers := m.registers.set a (if b = c then 1 else 0), pc := m.pc + 4 }
    -- gt: 5 a b c
    | 5 =>
      match resolveAt m (m.pc + 2) with
      | Except.error f => StepResult.fault f
      | Except.ok b =>
        match resolveAt m (m.pc + 3) with
        | Except.error f => StepResult.fault f
        | Except.ok c =>
          match registerAt m (m.pc + 1) with
          | Except.error f => StepResult.fault f
          | Except.ok a =>
            StepResult.next { m with registers := m.registers.set a (if c < b then 1 else 0), pc := m.pc + 4 }
    -- jmp: 6 a
    | 6 =>
      match resolveAt m (m.pc + 1) with
      | Except.error f => StepResult.fault f
      | Except.ok a => StepResult.next { m with pc := a }
    -- jt: 7 a b
    | 7 =>
      match resolveAt m (m.pc + 1) with
      | Except.error f => StepResult.fault f
      | Except.ok a =>
        match resolveAt m (m.pc + 2) with
        | Except.error f => StepResult.fault f
        | Except.ok b =>
          if a ≠ 0 then StepResult.next { m with pc := b }
          else StepResult.next { m with pc := m.pc + 3 }
    -- jf: 8 a b
    | 8 =>
      match resolveAt m (m.pc + 1) with
      | Except.error f => StepResult.fault f
      | Except.ok a =>
        match resolveAt m (m.pc + 2) with
        | Except.error f => StepResult.fault f
        | Except.ok b =>
          if a = 0 then StepResult.next { m with pc := b }
          else StepResult.next { m with pc := m.pc + 3 }
    -- add: 9 a b c ; b.wrapping_add(c) & 0x7FFF
    | 9 =>
      match resolveAt m (m.pc + 2) with
      | Except.error f => StepResult.fault f
      | Except.ok b =>
        match resolveAt m (m.pc + 3) with
        | Except.error f => StepResult.fault f
        | Except.ok c =>
          match registerAt m (m.pc + 1) with
          | Except.error f => StepResult.fault f
          | Except.ok a =>
            StepResult.next { m with registers := m.registers.set a (((b + c) % 65536) &&& 0x7FFF), pc := m.pc + 4 }
    -- mult: 10 a b c ; b.wrapping_mul(c) & 0x7FFF
    | 10 =>
      match resolveAt m (m.pc + 2) with
      | Except.error f => StepResult.fault f
      | Except.ok b =>
        match resolveAt m (m.pc + 3) with
        | Except.error f => StepResult.fault f
        | Except.ok c =>
          match registerAt m (m.pc + 1) with
          | Except.error f => StepResult.fault f
          | Except.ok a =>
            StepResult.next { m with registers := m.registers.set a (((b * c) % 65536) &&& 0x7FFF), pc := m.pc + 4 }
    -- mod: 11 a b c ; (b % c) & 0x7FFF, Rust % panics when c == 0
    | 11 =>
      match resolveAt m (m.pc + 2) with
      | Except.error f => StepResult.fault f
      | Except.ok b =>
        match resolveAt m (m.pc + 3) with
        | Except.error f => StepResult.fault f
        | Except.ok c =>
          match registerAt m (m.pc + 1) with
          | Except.error f => StepResult.fault f
          | Except.ok a =>
            if c = 0 then StepResult.fault Fault.divByZero
            else StepResult.next { m with registers := m.registers.set a ((b % c) &&& 0x7FFF), pc := m.pc + 4 }
    -- and: 12 a b c ; (b & c) & 0x7FFF
    | 12 =>
      match resolveAt m (m.pc + 2) with
      | Except.error f => StepResult.fault f
      | Except.ok b =>
        match resolveAt m (m.pc + 3) with
        | Except.error f => StepResult.fault f
        | Except.ok c =>
          match registerAt m (m.pc + 1) with
          | Except.error f => StepResult.fault f
          | Except.ok a =>
            StepResult.next { m with registers := m.registers.set a ((b &&& c) &&& 0x7FFF), pc := m.pc + 4 }
    -- or: 13 a b c ; (b | c) & 0x7FFF
    | 13 =>
      match resolveAt m (m.pc + 2) with
      | Except.error f => StepResult.fault f
      | Except.ok b =>
        match resolveAt m (m.pc + 3) with
        | Except.error f => StepResult.fault f
        | Except.ok c =>
          match registerAt m (m.pc + 1) with
          | Except.error f => StepResult.fault f
          | Except.ok a =>
            StepResult.next { m with registers := m.registers.set a ((b ||| c) &&& 0x7FFF), pc := m.pc + 4 }
    -- not: 14 a b ; (!b) & 0x7FFF, with !b the 16-bit complement 65535 - b
    | 14 =>
      match resolveAt m (m.pc + 2) with
      | Except.error f => StepResult.fault f
      | Except.ok b =>
        match registerAt m (m.pc + 1) with
        | Except.error f => StepResult.fault f
        | Except.ok a =>
          StepResult.next { m with registers := m.registers.set a ((65535 - b) &&& 0x7FFF), pc := m.pc + 3 }
    -- rmem: 15 a b ; *a = words[b]
    | 15 =>
      match resolveAt m (m.pc + 2) with
      | Except.error f => StepResult.fault f
      | Except.ok b =>
        match registerAt m (m.pc + 1) with
        | Except.error f => StepResult.fault f
        | Except.ok a =>
          match fetchWord m.words b with
          | Except.error f => StepResult.fault f
          | Except.ok v =>
            StepResult.next { m with registers := m.registers.set a v, pc := m.pc + 3 }
    -- wmem: 16 a b ; words[a] = b, index panics when a ≥ words.len()
    | 16 =>
      match resolveAt m (m.pc + 1) with
      | Except.error f => StepResult.fault f
      | Except.ok a =>
        match resolveAt m (m.pc + 2) with
        | Except.error f => StepResult.fault f
        | Except.ok b =>
          if a < m.words.length then
            StepResult.next { m with words := m.words.set a b, pc := m.pc + 3 }
          else
            StepResult.fault Fault.outOfRangeAddress
    -- call: 17 a ; stack.push((pc + 2) as u16); pc = resolve(a)
    | 17 =>
      match resolveAt m (m.pc + 1) with
      | Except.error f => StepResult.fault f
      | Except.ok a =>
        StepResult.next { m with stack := ((m.pc + 2) % 65536) :: m.stack, pc := a }
    -- ret: 18 ; pc = stack.pop().unwrap() — panics on an empty stack
    | 18 =>
      match m.stack with
      | [] => StepResult.fault Fault.stackUnderflow
      | v :: rest => StepResult.next { m with stack := rest, pc := v }
    -- out: 19 a ; print a as u8 as char
    | 19 =>
      match resolveAt m (m.pc + 1) with
      | Except.error f => StepResult.fault f
      | Except.ok a =>
        StepResult.next { m with output := m.output ++ [a % 256], pc := m.pc + 2 }
    -- in: 20 a ; *a = next stdin byte as u16, unwrap panics at end of input
    | 20 =>
      match registerAt m (m.pc + 1) with
      | Except.error f => StepResult.fault f
      | Except.ok a =>
        match m.input with
        | [] => StepResult.fault Fault.inputExhausted
        | ch :: rest =>
          StepResult.next { m with registers := m.registers.set a (ch % 256), input := rest, pc := m.pc + 2 }
    -- noop: 21
    | 21 => StepResult.next { m with pc := m.pc + 1 }
    -- x => panic!("Unhandled opcode {}", x)
    | _ => StepResult.fault Fault.unknownOpcode

/-- Rust `char::escape_default` restricted to the ASCII arguments the
disassembler can produce (`x < 128`): the named escapes, printable ASCII
verbatim, and a lowercase-hex Unicode escape otherwise. -/
def escape_default (c : Nat) : String :=
  if c = 9 then "\\t"
  else if c = 13 then "\\r"
  else if c = 10 then "\\n"
  else if c = 92 then "\\\\"
  else if c = 39 then "\\" ++ String.mk [Char.ofNat 39]
  else if c = 34 then "\\\""
  else if 32 ≤ c ∧ c ≤ 126 then String.mk [Char.ofNat c]
  else "\\u\x7b" ++ (Nat.toDigits 16 c).asString ++ "\x7d"

/-- `fn dissasemble(word: u16) -> String` from `main.rs`, arm for arm.
The `match` in the source has no arm for word 20 (`// in: 20 a` is
followed by `// todo`), so 20 falls through to the `x if x < 128`
printable-character arm. -/
def dissasemble (word : Nat) : String :=
  match word with
  | 0 => "halt"
  | 1 => "set"
  | 2 => "push"
  | 3 => "pop"
  | 4 => "eq"
  | 5 => "gt"
  | 6 => "jmp"
  | 7 => "jump-true"
  | 8 => "jump-false"
  | 9 => "add"
  | 10 => "mult"
  | 11 => "mod"
  | 12 => "and"
  | 13 => "or"
  | 14 => "not"
  | 15 => "rmem"
  | 16 => "wmem"
  | 17 => "call"
  | 18 => "ret"
  | 19 => "out"
  | 21 => "nop"
  | 32768 => "Register 0"
  | 32769 => "Register 1"
  | 32770 => "Register 2"
  | 32771 => "Register 3"
  | 32772 => "Register 4"
  | 32773 => "Register 5"
  | 32774 => "Register 6"
  | 32775 => "Register 7"
  | x =>
    if x < 128 then "printable " ++ toString x ++ " (" ++ escape_default x ++ ")"
    else "literal " ++ toString x

/-! ### Shared helper lemmas -/

theorem fetch_eq {words : List Nat} {i w : Nat} (h : words.get? i = some w) :
    fetchWord words i = Except.ok w := by
  unfold fetchWord
  rw [h]

theorem resolveAt_eq {m : Machine} {i w v : Nat} (h1 : m.words.get? i = some w)
    (h2 : literal_or_register w m.registers = Except.ok v) :
    resolveAt m i = Except.ok v := by
  unfold resolveAt
  rw [fetch_eq h1]
  exact h2

theorem registerAt_eq {m : Machine} {i w a : Nat} (h1 : m.words.get? i = some w)
    (h2 : register w m.registers = Except.ok a) :
    registerAt m i = Except.ok a := by
  unfold registerAt
  rw [fetch_eq h1]
  exact h2

/-- Masking with `0x7FFF` is reduction modulo 2^15. -/
theorem mask15_eq_mod (x : Nat) : x &&& 0x7FFF = x % 32768 := by
  have h1 := Nat.and_pow_two_sub_one_eq_mod x 15
  norm_num at h1
  exact h1

/-- Wrapping 16-bit arithmetic followed by the 15-bit mask is reduction
modulo 2^15 (because 2^15 divides 2^16). -/
theorem wrap_mask (x : Nat) : x % 65536 &&& 0x7FFF = x % 32768 := by
  rw [mask15_eq_mod]
  exact Nat.mod_mod_of_dvd _ (by norm_num)

/-- Any value masked with `0x7FFF` lies in `0..32767`. -/
theorem mask15_lt (x : Nat) : x &&& 0x7FFF < 32768 := by
  rw [mask15_eq_mod]
  exact Nat.mod_lt _ (by norm_num)

/-! ### Claims -/

/-- C1: the spec claims `ret` (opcode 18) on an empty stack halts the
machine normally while `pop` (opcode 3) on an empty stack raises
`StackUnderflow`.  The code's own comment on the `ret` handler says
"empty stack = halt", but the handler executes `stack.pop().unwrap()`,
which panics on an empty stack exactly as `pop`'s
`stack.pop().expect("Empty stack")` does: both terminate abnormally and
the two behaviours are not distinct. -/
theorem c1_ret_empty_stack_faults_like_pop :
    step { words := [18], registers := [0, 0, 0, 0, 0, 0, 0, 0], stack := [],
           pc := 0, input := [], output := [] } =
      StepResult.fault Fault.stackUnderflow ∧
    step { words := [3, 32768], registers := [0, 0, 0, 0, 0, 0, 0, 0], stack := [],
           pc := 0, input := [], output := [] } =
      StepResult.fault Fault.stackUnderflow := by
  exact ⟨rfl, rfl⟩

/-- C3 counterexample: the disassembler has no arm for opcode 20
(the source comment block documents `in: 20 a` and then says `todo`),
so the word 20 falls through to the printable-character arm instead of
producing the mnemonic `in`. -/
theorem c3_opcode20_has_no_mnemonic :
    dissasemble 20 = "printable 20 (\\u\x7b14\x7d)" ∧ dissasemble 20 ≠ "in" := by
  exact ⟨rfl, by decide⟩

/-- C5: for any 8-slot register bank, resolving a raw operand word
`w ≥ 32776` fails with the `InvalidOperand` fault (in the code: the
register slice index `w - 32768` is out of bounds, aborting the run in
a Faulted state), and resolving `w` in `32768..32775` returns the
register bank's current value at index `w - 32768`. -/
theorem c5_resolve_operand (registers : List Nat) (h8 : registers.length = 8) :
    (∀ w, 32776 ≤ w →
      literal_or_register w registers = Except.error Fault.invalidOperand) ∧
    (∀ w, 32768 ≤ w → w ≤ 32775 →
      ∃ v, registers.get? (w - 32768) = some v ∧
        literal_or_register w registers = Except.ok v) := by
  constructor
  · intro w hw
    unfold literal_or_register
    rw [if_pos (by omega)]
    have hnone : registers.get? (w - 32768) = none := by
      rw [List.get?_eq_none]
      omega
    rw [hnone]
  · intro w h1 h2
    cases hget : registers.get? (w - 32768) with
    | none =>
      rw [List.get?_eq_none] at hget
      omega
    | some v =>
      refine ⟨v, rfl, ?_⟩
      unfold literal_or_register
      rw [if_pos h1, hget]

/-- C5 witness at a concrete register bank: `w = 40000` faults and
`w = 32770` reads register 2. -/
theorem c5_resolve_operand_witness :
    literal_or_register 40000 [10, 11, 12, 13, 14, 15, 16, 17] =
      Except.error Fault.invalidOperand ∧
    ∃ v, ([10, 11, 12, 13, 14, 15, 16, 17] : List Nat).get? (32770 - 32768) = some v ∧
      literal_or_register 32770 [10, 11, 12, 13, 14, 15, 16, 17] = Except.ok v := by
  have h := c5_resolve_operand [10, 11, 12, 13, 14, 15, 16, 17] rfl
  exact ⟨h.1 40000 (by norm_num), h.2 32770 (by norm_num) (by norm_num)⟩

/-- C6: for any 8-slot register bank, resolving a raw destination word
`w < 32768` fails with the `InvalidDestination` fault (in the code the
`addr - 32768` computation panics in debug builds and the wrapped index
is out of bounds in release builds — the run aborts either way, the
violation is not silently ignored), while `w` in `32768..32775` yields
the handle (index) of register bank slot `w - 32768`. -/
theorem c6_register_destination (registers : List Nat) (h8 : registers.length = 8) :
    (∀ w, w < 32768 →
      register w registers = Except.error Fault.invalidDestination) ∧
    (∀ w, 32768 ≤ w → w ≤ 32775 →
      register w registers = Except.ok (w - 32768)) := by
  constructor
  · intro w hw
    unfold register
    rw [if_pos hw]
  · intro w h1 h2
    unfold register
    rw [if_neg (by omega), if_pos (by omega)]

/-- C6 witness at a concrete register bank: destination word 5 (a
literal) faults, destination word 32771 is the handle of slot 3. -/
theorem c6_register_destination_witness :
    register 5 [10, 11, 12, 13, 14, 15, 16, 17] =
      Except.error Fault.invalidDestination ∧
    register 32771 [10, 11, 12, 13, 14, 15, 16, 17] = Except.ok 3 := by
  have h := c6_register_destination [10, 11, 12, 13, 14, 15, 16, 17] rfl
  exact ⟨h.1 5 (by norm_num), h.2 32771 (by norm_num) (by norm_num)⟩

/-- C7: with the operands of a 3-operand instruction decoded — raw source
words resolving to `b` and `c` (any 16-bit values) and the raw
destination word naming register slot `a` — an `add` (opcode 9) stores
`(b + c) % 32768` and a `mult` (opcode 10) stores `(b * c) % 32768`,
both advancing `pc` by 4; the stored results are always below 32768. -/
theorem c7_add_mult_wraparound (m : Machine) (aw bw cw b c a : Nat)
    (haw : m.words.get? (m.pc + 1) = some aw)
    (hbw : m.words.get? (m.pc + 2) = some bw)
    (hcw : m.words.get? (m.pc + 3) = some cw)
    (hb : literal_or_register bw m.registers = Except.ok b)
    (hc : literal_or_register cw m.registers = Except.ok c)
    (ha : register aw m.registers = Except.ok a)
    (_hbu : b < 65536) (_hcu : c < 65536) :
    (m.words.get? m.pc = some 9 →
      step m = StepResult.next
        { m with registers := m.registers.set a ((b + c) % 32768), pc := m.pc + 4 }) ∧
    (m.words.get? m.pc = some 10 →
      step m = StepResult.next
        { m with registers := m.registers.set a ((b * c) % 32768), pc := m.pc + 4 }) ∧
    (b + c) % 32768 < 32768 ∧ (b * c) % 32768 < 32768 := by
  refine ⟨?_, ?_, Nat.mod_lt _ (by norm_num), Nat.mod_lt _ (by norm_num)⟩
  · intro hop
    unfold step
    rw [fetch_eq hop, resolveAt_eq hbw hb, resolveAt_eq hcw hc, registerAt_eq haw ha,
      ← wrap_mask (b + c)]
  · intro hop
    unfold step
    rw [fetch_eq hop, resolveAt_eq hbw hb, resolveAt_eq hcw hc, registerAt_eq haw ha,
      ← wrap_mask (b * c)]

/-- C7 witness, the spec's own example `add(32767, 5) == 4`: with
register 1 holding 32767 and register 2 holding 5, `add r0 r1 r2`
stores 4 into register 0. -/
theorem c7_add_mult_wraparound_witness :
    step { words := [9, 32768, 32769, 32770], registers := [0, 32767, 5, 0, 0, 0, 0, 0],
           stack := [], pc := 0, input := [], output := [] } =
      StepResult.next
        { words := [9, 32768, 32769, 32770], registers := [4, 32767, 5, 0, 0, 0, 0, 0],
          stack := [], pc := 4, input := [], output := [] } := by
  have h := c7_add_mult_wraparound
    { words := [9, 32768, 32769, 32770], registers := [0, 32767, 5, 0, 0, 0, 0, 0],
      stack := [], pc := 0, input := [], output := [] }
    32768 32769 32770 32767 5 0 rfl rfl rfl rfl rfl rfl (by norm_num) (by norm_num)
  rw [h.1 rfl]
  rfl

/-- C8: with the operands of `not` (opcode 14) decoded — the raw source
word resolving to `b ≤ 32767` and the raw destination word naming
register slot `a` — the instruction stores exactly `32767 - b`, the
15-bit complement, itself at most 32767, and advances `pc` by 3. -/
theorem c8_not_is_15bit_complement (m : Machine) (aw bw b a : Nat)
    (hop : m.words.get? m.pc = some 14)
    (haw : m.words.get? (m.pc + 1) = some aw)
    (hbw : m.words.get? (m.pc + 2) = some bw)
    (hb : literal_or_register bw m.registers = Except.ok b)
    (ha : register aw m.registers = Except.ok a)
    (hble : b ≤ 32767) :
    step m = StepResult.next
      { m with registers := m.registers.set a (32767 - b), pc := m.pc + 3 } ∧
    32767 - b ≤ 32767 := by
  have hmask : (65535 - b) &&& 0x7FFF = 32767 - b := by
    rw [mask15_eq_mod]
    have hsplit : 65535 - b = 32768 + (32767 - b) := by omega
    rw [hsplit, Nat.add_mod_left, Nat.mod_eq_of_lt (by omega)]
  refine ⟨?_, by omega⟩
  unfold step
  rw [fetch_eq hop, resolveAt_eq hbw hb, registerAt_eq haw ha, ← hmask]

/-- C8 witness, the spec's own example `not(0) == 32767`: with register 1
holding 0, `not r0 r1` stores 32767 into register 0. -/
theorem c8_not_is_15bit_complement_witness :
    step { words := [14, 32768, 32769], registers := [5, 0, 0, 0, 0, 0, 0, 0],
           stack := [], pc := 0, input := [], output := [] } =
      StepResult.next
        { words := [14, 32768, 32769], registers := [32767, 0, 0, 0, 0, 0, 0, 0],
          stack := [], pc := 3, input := [], output := [] } := by
  have h := c8_not_is_15bit_complement
    { words := [14, 32768, 32769], registers := [5, 0, 0, 0, 0, 0, 0, 0],
      stack := [], pc := 0, input := [], output := [] }
    32768 32769 0 0 rfl rfl rfl rfl rfl (by norm_num)
  rw [h.1]
  rfl

/-- C4 counterexample: the claim says a `wmem` to any address in
`0..32767` succeeds even beyond the loaded image length.  In the code
`words[a] = b` is a `Vec` index, which panics when `a` is not below the
vector's length: the 4-word image `[16, 5, 7, 0]` executes
`wmem 5 7` with `5 < 32768` and faults with the out-of-range panic
instead of writing. -/
theorem c4_wmem_beyond_image_faults :
    step { words := [16, 5, 7, 0], registers := [0, 0, 0, 0, 0, 0, 0, 0], stack := [],
           pc := 0, input := [], output := [] } =
      StepResult.fault Fault.outOfRangeAddress ∧
    (5 : Nat) < 32768 := by
  exact ⟨rfl, by norm_num⟩

/-- C4 amended: with the `wmem` operands decoded (resolved destination
address `a`, resolved value `b`), the write succeeds exactly when `a` is
below the current length of the word vector; any larger address — even
one inside the 15-bit bound `0..32767` — aborts with the out-of-range
fault. -/
theorem c4_wmem_writes_inside_image (m : Machine) (aw bw a b : Nat)
    (hop : m.words.get? m.pc = some 16)
    (haw : m.words.get? (m.pc + 1) = some aw)
    (hbw : m.words.get? (m.pc + 2) = some bw)
    (ha : literal_or_register aw m.registers = Except.ok a)
    (hb : literal_or_register bw m.registers = Except.ok b) :
    step m = if a < m.words.length then
        StepResult.next { m with words := m.words.set a b, pc := m.pc + 3 }
      else
        StepResult.fault Fault.outOfRangeAddress := by
  unfold step
  rw [fetch_eq hop, resolveAt_eq haw ha, resolveAt_eq hbw hb]

/-- C4 amended witness: `wmem 3 7` on the 4-word image `[16, 3, 7, 0]`
writes 7 at address 3. -/
theorem c4_wmem_writes_inside_image_witness :
    step { words := [16, 3, 7, 0], registers := [0, 0, 0, 0, 0, 0, 0, 0], stack := [],
           pc := 0, input := [], output := [] } =
      StepResult.next
        { words := [16, 3, 7, 7], registers := [0, 0, 0, 0, 0, 0, 0, 0], stack := [],
          pc := 3, input := [], output := [] } := by
  have h := c4_wmem_writes_inside_image
    { words := [16, 3, 7, 0], registers := [0, 0, 0, 0, 0, 0, 0, 0], stack := [],
      pc := 0, input := [], output := [] }
    3 7 3 7 rfl rfl rfl rfl rfl
  rw [h]
  rfl

/-- C9: a `call` (opcode 17) at program counter `p` (with its operand
resolving to `t`, and `p + 2` inside the 16-bit range of the `as u16`
cast) pushes `p + 2` onto the value stack and jumps to `t`; and
afterwards, any state whatsoever that executes `ret` (opcode 18) with
the stack returned to that pushed entry on top of the original stack —
however deeply call/ret pairs nested in between — continues at exactly
`p + 2` with the original stack restored. -/
theorem c9_call_ret_returns_to_caller (m : Machine) (aw t : Nat)
    (hop : m.words.get? m.pc = some 17)
    (haw : m.words.get? (m.pc + 1) = some aw)
    (ht : literal_or_register aw m.registers = Except.ok t)
    (hpc : m.pc + 2 < 65536) :
    step m = StepResult.next { m with stack := (m.pc + 2) :: m.stack, pc := t } ∧
    ∀ m2 : Machine, m2.words.get? m2.pc = some 18 →
      m2.stack = (m.pc + 2) :: m.stack →
      step m2 = StepResult.next { m2 with stack := m.stack, pc := m.pc + 2 } := by
  constructor
  · unfold step
    rw [fetch_eq hop, resolveAt_eq haw ht, Nat.mod_eq_of_lt hpc]
  · intro m2 h18 hstk
    unfold step
    rw [fetch_eq h18, hstk]

/-- C9 witness: `call 3` at pc 0 pushes 2 and jumps to 3, where a `ret`
with that stack pops 2 and continues at pc 2. -/
theorem c9_call_ret_returns_to_caller_witness :
    step { words := [17, 3, 0, 18], registers := [0, 0, 0, 0, 0, 0, 0, 0], stack := [],
           pc := 0, input := [], output := [] } =
      StepResult.next
        { words := [17, 3, 0, 18], registers := [0, 0, 0, 0, 0, 0, 0, 0], stack := [2],
          pc := 3, input := [], output := [] } ∧
    step { words := [17, 3, 0, 18], registers := [0, 0, 0, 0, 0, 0, 0, 0], stack := [2],
           pc := 3, input := [], output := [] } =
      StepResult.next
        { words := [17, 3, 0, 18], registers := [0, 0, 0, 0, 0, 0, 0, 0], stack := [],
          pc := 2, input := [], output := [] } := by
  have h := c9_call_ret_returns_to_caller
    { words := [17, 3, 0, 18], registers := [0, 0, 0, 0, 0, 0, 0, 0], stack := [],
      pc := 0, input := [], output := [] }
    3 3 rfl rfl rfl (by norm_num)
  have h2 := h.2 ⟨[17, 3, 0, 18], [0, 0, 0, 0, 0, 0, 0, 0], [2], 3, [], []⟩ rfl rfl
  constructor
  · rw [h.1]
  · rw [h2]

/-- C10 counterexample: `mod` does not always store
`resolve(b) mod resolve(c)` — the handler computes `(b % c) & 0x7FFF`,
and the mask changes remainders of 32768 or more.  With register 1
holding 40000 and register 2 holding 50000 (reachable values, since
`rmem` copies raw image words into registers unmasked), the stored
value is 7232, not `40000 % 50000 = 40000`. -/
theorem c10_mod_masks_large_remainders :
    ∃ m', step { words := [11, 32768, 32769, 32770],
                 registers := [0, 40000, 50000, 0, 0, 0, 0, 0], stack := [],
                 pc := 0, input := [], output := [] } = StepResult.next m' ∧
      m'.registers.get? 0 = some 7232 ∧ (40000 : Nat) % 50000 ≠ 7232 := by
  refine ⟨_, rfl, rfl, by norm_num⟩

/-- C10 amended: with the `mod` (opcode 11) operands decoded, a zero
divisor aborts the run with the division-by-zero fault (the Rust `%`
panic — a condition absent from the spec's error taxonomy); a nonzero
divisor stores `(b % c) % 32768` (the handler's `& 0x7FFF` mask), which
is always below 32768 and equals `b % c` whenever that remainder is
below 32768 — in particular whenever `b ≤ 32767`. -/
theorem c10_mod_semantics (m : Machine) (aw bw cw b c a : Nat)
    (hop : m.words.get? m.pc = some 11)
    (haw : m.words.get? (m.pc + 1) = some aw)
    (hbw : m.words.get? (m.pc + 2) = some bw)
    (hcw : m.words.get? (m.pc + 3) = some cw)
    (hb : literal_or_register bw m.registers = Except.ok b)
    (hc : literal_or_register cw m.registers = Except.ok c)
    (ha : register aw m.registers = Except.ok a) :
    (c = 0 → step m = StepResult.fault Fault.divByZero) ∧
    (c ≠ 0 → step m = StepResult.next
        { m with registers := m.registers.set a ((b % c) % 32768), pc := m.pc + 4 } ∧
      (b % c) % 32768 < 32768 ∧ (b % c < 32768 → (b % c) % 32768 = b % c)) := by
  constructor
  · intro hc0
    subst hc0
    unfold step
    rw [fetch_eq hop, resolveAt_eq hbw hb, resolveAt_eq hcw hc, registerAt_eq haw ha]
    rfl
  · intro hc0
    have hred : step m = (if c = 0 then StepResult.fault Fault.divByZero
        else StepResult.next
          { m with registers := m.registers.set a ((b % c) &&& 0x7FFF), pc := m.pc + 4 }) := by
      unfold step
      rw [fetch_eq hop, resolveAt_eq hbw hb, resolveAt_eq hcw hc, registerAt_eq haw ha]
    rw [if_neg hc0, mask15_eq_mod] at hred
    exact ⟨hred, Nat.mod_lt _ (by norm_num), fun hlt => Nat.mod_eq_of_lt hlt⟩

/-- C10 witness: `mod r0 r1 r2` faults when register 2 holds 0, and with
register 1 holding 7 and register 2 holding 3 it stores `7 % 3 = 1`. -/
theorem c10_mod_semantics_witness :
    step { words := [11, 32768, 32769, 32770], registers := [0, 7, 0, 0, 0, 0, 0, 0],
           stack := [], pc := 0, input := [], output := [] } =
      StepResult.fault Fault.divByZero ∧
    step { words := [11, 32768, 32769, 32770], registers := [0, 7, 3, 0, 0, 0, 0, 0],
           stack := [], pc := 0, input := [], output := [] } =
      StepResult.next
        { words := [11, 32768, 32769, 32770], registers := [1, 7, 3, 0, 0, 0, 0, 0],
          stack := [], pc := 4, input := [], output := [] } := by
  have h0 := c10_mod_semantics
    { words := [11, 32768, 32769, 32770], registers := [0, 7, 0, 0, 0, 0, 0, 0],
      stack := [], pc := 0, input := [], output := [] }
    32768 32769 32770 7 0 0 rfl rfl rfl rfl rfl rfl rfl
  have h1 := c10_mod_semantics
    { words := [11, 32768, 32769, 32770], registers := [0, 7, 3, 0, 0, 0, 0, 0],
      stack := [], pc := 0, input := [], output := [] }
    32768 32769 32770 7 3 0 rfl rfl rfl rfl rfl rfl rfl
  refine ⟨h0.1 rfl, ?_⟩
  rw [(h1.2 (by norm_num)).1]
  rfl

/-- C2 counterexample: the register-bank invariant fails.  `rmem`
(opcode 15) executes `*a = words[b]` with no mask, so a raw image word
≥ 32768 — here the operand word 32768 stored at address 3 of the image
itself — is copied verbatim into register 0, leaving the register bank
holding a value above 32767 after a successfully executed instruction. -/
theorem c2_rmem_stores_raw_word :
    ∃ m', step { words := [15, 32768, 3, 32768], registers := [0, 0, 0, 0, 0, 0, 0, 0],
                 stack := [], pc := 0, input := [], output := [] } =
        StepResult.next m' ∧
      ∃ v, m'.registers.get? 0 = some v ∧ 32767 < v := by
  exact ⟨_, rfl, 32768, rfl, by norm_num⟩

/-- C2 amended: among the register-writing instructions, the computing
ones — eq, gt, add, mult, mod, and, or, not and in (opcodes 4, 5, 9,
10, 11, 12, 13, 14, 20) — never store a value above 32767: whenever one
of them completes a step, the new register bank is the old one with a
single slot set to a value below 32768.  (set, pop and rmem copy their
source word unmasked instead, as the counterexample shows for rmem.) -/
theorem c2_compute_instructions_mask (m m' : Machine) (op : Nat)
    (hop : m.words.get? m.pc = some op)
    (hmem : op ∈ ([4, 5, 9, 10, 11, 12, 13, 14, 20] : List Nat))
    (hstep : step m = StepResult.next m') :
    ∃ i v, v < 32768 ∧ m'.registers = m.registers.set i v := by
  fin_cases hmem
  -- eq: 4
  · cases hb : resolveAt m (m.pc + 2) with
    | error f =>
      have hred : step m = StepResult.fault f := by
        unfold step
        rw [fetch_eq hop, hb]
      rw [hred] at hstep
      exact StepResult.noConfusion hstep
    | ok b =>
      cases hc : resolveAt m (m.pc + 3) with
      | error f =>
        have hred : step m = StepResult.fault f := by
          unfold step
          rw [fetch_eq hop, hb, hc]
        rw [hred] at hstep
        exact StepResult.noConfusion hstep
      | ok c =>
        cases ha : registerAt m (m.pc + 1) with
        | error f =>
          have hred : step m = StepResult.fault f := by
            unfold step
            rw [fetch_eq hop, hb, hc, ha]
          rw [hred] at hstep
          exact StepResult.noConfusion hstep
        | ok a =>
          have hred : step m = StepResult.next
              { m with registers := m.registers.set a (if b = c then 1 else 0), pc := m.pc + 4 } := by
            unfold step
            rw [fetch_eq hop, hb, hc, ha]
          rw [hred] at hstep
          injection hstep with h2
          subst h2
          refine ⟨a, _, ?_, rfl⟩
          split <;> norm_num
  -- gt: 5
  · cases hb : resolveAt m (m.pc + 2) with
    | error f =>
      have hred : step m = StepResult.fault f := by
        unfold step
        rw [fetch_eq hop, hb]
      rw [hred] at hstep
      exact StepResult.noConfusion hstep
    | ok b =>
      cases hc : resolveAt m (m.pc + 3) with
      | error f =>
        have hred : step m = StepResult.fault f := by
          unfold step
          rw [fetch_eq hop, hb, hc]
        rw [hred] at hstep
        exact StepResult.noConfusion hstep
      | ok c =>
        cases ha : registerAt m (m.pc + 1) with
        | error f =>
          have hred : step m = StepResult.fault f := by
            unfold step
            rw [fetch_eq hop, hb, hc, ha]
          rw [hred] at hstep
          exact StepResult.noConfusion hstep
        | ok a =>
          have hred : step m = StepResult.next
              { m with registers := m.registers.set a (if c < b then 1 else 0), pc := m.pc + 4 } := by
            unfold step
            rw [fetch_eq hop, hb, hc, ha]
          rw [hred] at hstep
          injection hstep with h2
          subst h2
          refine ⟨a, _, ?_, rfl⟩
          split <;> norm_num
  -- add: 9
  · cases hb : resolveAt m (m.pc + 2) with
    | error f =>
      have hred : step m = StepResult.fault f := by
        unfold step
        rw [fetch_eq hop, hb]
      rw [hred] at hstep
      exact StepResult.noConfusion hstep
    | ok b =>
      cases hc : resolveAt m (m.pc + 3) with
      | error f =>
        have hred : step m = StepResult.fault f := by
          unfold step
          rw [fetch_eq hop, hb, hc]
        rw [hred] at hstep
        exact StepResult.noConfusion hstep
      | ok c =>
        cases ha : registerAt m (m.pc + 1) with
        | error f =>
          have hred : step m = StepResult.fault f := by
            unfold step
            rw [fetch_eq hop, hb, hc, ha]
          rw [hred] at hstep
          exact StepResult.noConfusion hstep
        | ok a =>
          have hred : step m = StepResult.next
              { m with registers := m.registers.set a (((b + c) % 65536) &&& 0x7FFF), pc := m.pc + 4 } := by
            unfold step
            rw [fetch_eq hop, hb, hc, ha]
          rw [hred] at hstep
          injection hstep with h2
          subst h2
          exact ⟨a, _, mask15_lt _, rfl⟩
  -- mult: 10
  · cases hb : resolveAt m (m.pc + 2) with
    | error f =>
      have hred : step m = StepResult.fault f := by
        unfold step
        rw [fetch_eq hop, hb]
      rw [hred] at hstep
      exact StepResult.noConfusion hstep
    | ok b =>
      cases hc : resolveAt m (m.pc + 3) with
      | error f =>
        have hred : step m = StepResult.fault f := by
          unfold step
          rw [fetch_eq hop, hb, hc]
        rw [hred] at hstep
        exact StepResult.noConfusion hstep
      | ok c =>
        cases ha : registerAt m (m.pc + 1) with
        | error f =>
          have hred : step m = StepResult.fault f := by
            unfold step
            rw [fetch_eq hop, hb, hc, ha]
          rw [hred] at hstep
          exact StepResult.noConfusion hstep
        | ok a =>
          have hred : step m = StepResult.next
              { m with registers := m.registers.set a (((b * c) % 65536) &&& 0x7FFF), pc := m.pc + 4 } := by
            unfold step
            rw [fetch_eq hop, hb, hc, ha]
          rw [hred] at hstep
          injection hstep with h2
          subst h2
          exact ⟨a, _, mask15_lt _, rfl⟩
  -- mod: 11
  · cases hb : resolveAt m (m.pc + 2) with
    | error f =>
      have hred : step m = StepResult.fault f := by
        unfold step
        rw [fetch_eq hop, hb]
      rw [hred] at hstep
      exact StepResult.noConfusion hstep
    | ok b =>
      cases hc : resolveAt m (m.pc + 3) with
      | error f =>
        have hred : step m = StepResult.fault f := by
          unfold step
          rw [fetch_eq hop, hb, hc]
        rw [hred] at hstep
        exact StepResult.noConfusion hstep
      | ok c =>
        cases ha : registerAt m (m.pc + 1) with
        | error f =>
          have hred : step m = StepResult.fault f := by
            unfold step
            rw [fetch_eq hop, hb, hc, ha]
          rw [hred] at hstep
          exact StepResult.noConfusion hstep
        | ok a =>
          have hred : step m = (if c = 0 then StepResult.fault Fault.divByZero
              else StepResult.next
                { m with registers := m.registers.set a ((b % c) &&& 0x7FFF), pc := m.pc + 4 }) := by
            unfold step
            rw [fetch_eq hop, hb, hc, ha]
          by_cases hc0 : c = 0
          · rw [if_pos hc0] at hred
            rw [hred] at hstep
            exact StepResult.noConfusion hstep
          · rw [if_neg hc0] at hred
            rw [hred] at hstep
            injection hstep with h2
            subst h2
            exact ⟨a, _, mask15_lt _, rfl⟩
  -- and: 12
  · cases hb : resolveAt m (m.pc + 2) with
    | error f =>
      have hred : step m = StepResult.fault f := by
        unfold step
        rw [fetch_eq hop, hb]
      rw [hred] at hstep
      exact StepResult.noConfusion hstep
    | ok b =>
      cases hc : resolveAt m (m.pc + 3) with
      | error f =>
        have hred : step m = StepResult.fault f := by
          unfold step
          rw [fetch_eq hop, hb, hc]
        rw [hred] at hstep
        exact StepResult.noConfusion hstep
      | ok c =>
        cases ha : registerAt m (m.pc + 1) with
        | error f =>
          have hred : step m = StepResult.fault f := by
            unfold step
            rw [fetch_eq hop, hb, hc, ha]
          rw [hred] at hstep
          exact StepResult.noConfusion hstep
        | ok a =>
          have hred : step m = StepResult.next
              { m with registers := m.registers.set a ((b &&& c) &&& 0x7FFF), pc := m.pc + 4 } := by
            unfold step
            rw [fetch_eq hop, hb, hc, ha]
          rw [hred] at hstep
          injection hstep with h2
          subst h2
          exact ⟨a, _, mask15_lt _, rfl⟩
  -- or: 13
  · cases hb : resolveAt m (m.pc + 2) with
    | error f =>
      have hred : step m = StepResult.fault f := by
        unfold step
        rw [fetch_eq hop, hb]
      rw [hred] at hstep
      exact StepResult.noConfusion hstep
    | ok b =>
      cases hc : resolveAt m (m.pc + 3) with
      | error f =>
        have hred : step m = StepResult.fault f := by
          unfold step
          rw [fetch_eq hop, hb, hc]
        rw [hred] at hstep
        exact StepResult.noConfusion hstep
      | ok c =>
        cases ha : registerAt m (m.pc + 1) with
        | error f =>
          have hred : step m = StepResult.fault f := by
            unfold step
            rw [fetch_eq hop, hb, hc, ha]
          rw [hred] at hstep
          exact StepResult.noConfusion hstep
        | ok a =>
          have hred : step m = StepResult.next
              { m with registers := m.registers.set a ((b ||| c) &&& 0x7FFF), pc := m.pc + 4 } := by
            unfold step
            rw [fetch_eq hop, hb, hc, ha]
          rw [hred] at hstep
          injection hstep with h2
          subst h2
          exact ⟨a, _, mask15_lt _, rfl⟩
  -- not: 14
  · cases hb : resolveAt m (m.pc + 2) with
    | error f =>
      have hred : step m = StepResult.fault f := by
        unfold step
        rw [fetch_eq hop, hb]
      rw [hred] at hstep
      exact StepResult.noConfusion hstep
    | ok b =>
      cases ha : registerAt m (m.pc + 1) with
      | error f =>
        have hred : step m = StepResult.fault f := by
          unfold step
          rw [fetch_eq hop, hb, ha]
        rw [hred] at hstep
        exact StepResult.noConfusion hstep
      | ok a =>
        have hred : step m = StepResult.next
            { m with registers := m.registers.set a ((65535 - b) &&& 0x7FFF), pc := m.pc + 3 } := by
          unfold step
          rw [fetch_eq hop, hb, ha]
        rw [hred] at hstep
        injection hstep with h2
        subst h2
        exact ⟨a, _, mask15_lt _, rfl⟩
  -- in: 20
  · cases ha : registerAt m (m.pc + 1) with
    | error f =>
      have hred : step m = StepResult.fault f := by
        unfold step
        rw [fetch_eq hop, ha]
      rw [hred] at hstep
      exact StepResult.noConfusion hstep
    | ok a =>
      cases hin : m.input with
      | nil =>
        have hred : step m = StepResult.fault Fault.inputExhausted := by
          unfold step
          rw [fetch_eq hop, ha, hin]
        rw [hred] at hstep
        exact StepResult.noConfusion hstep
      | cons ch rest =>
        have hred : step m = StepResult.next
            { m with registers := m.registers.set a (ch % 256), input := rest, pc := m.pc + 2 } := by
          unfold step
          rw [fetch_eq hop, ha, hin]
        rw [hred] at hstep
        injection hstep with h2
        subst h2
        refine ⟨a, _, ?_, rfl⟩
        omega

/-- C2 amended witness: the add instruction `add r0 r1 r2` with
registers `[0, 5, 7, 0, 0, 0, 0, 0]` produces the register bank
`[12, 5, 7, 0, 0, 0, 0, 0]`, a single slot set to `12 < 32768`. -/
theorem c2_compute_instructions_mask_witness :
    ∃ i v, v < 32768 ∧
      ([12, 5, 7, 0, 0, 0, 0, 0] : List Nat) =
        ([0, 5, 7, 0, 0, 0, 0, 0] : List Nat).set i v := by
  exact c2_compute_instructions_mask
    ⟨[9, 32768, 32769, 32770], [0, 5, 7, 0, 0, 0, 0, 0], [], 0, [], []⟩
    ⟨[9, 32768, 32769, 32770], [12, 5, 7, 0, 0, 0, 0, 0], [], 4, [], []⟩
    9 rfl (by decide) rfl

end Synacor
